import Mathlib

/-!
Verification of the `errs` Go package: a shallow embedding of the error
value model (`Error` with internal cause, safe message, log details, user
details, domain and markers), the composition operations (`Wrap`, `Mark`,
the fluent factory), the classification mapper (`GetHTTPCode`,
`HTTPGetLogLevel`), the log renderer (`LogErr`) and the HTTP renderer
(`HandleHTTP`), together with proofs of the specified properties.

Go errors are modelled by the inductive `GoErr`.  A `base` node stands for
an `errors.New` value; identity of such values in Go is pointer identity,
modelled here by a numeric id (each distinct allocation gets a distinct id).
A `wrapf` node stands for `fmt.Errorf("%s: %w", ctx, inner)`.  An `errVal`
node stands for a `*errs.Error` value with its fields.
-/

/-- Opaque user payload (`UserDetails any`).  A `jval` serializes to JSON
successfully; a `badval` stands for a value `encoding/json` cannot marshal
(e.g. a channel). -/
inductive UVal where
  | jval (s : String)
  | badval (s : String)
deriving DecidableEq

/-- A Go error value.  `base id msg` is an `errors.New(msg)` allocation with
pointer identity `id`; `wrapf ctx inner` is `fmt.Errorf("%s: %w", ctx, inner)`;
`errVal` is a `*errs.Error` with fields `Internal`, `ExposeInternal`,
`SafeMessage`, `LogDetails`, `UserDetails`, `Domain`, `Markers`. -/
inductive GoErr where
  | base (id : Nat) (msg : String)
  | wrapf (ctx : String) (inner : GoErr)
  | errVal (internal : GoErr) (exposeInternal : Bool) (safeMessage : String)
      (logDetails : List String) (userDetails : Option UVal)
      (domain : String) (markers : List GoErr)

mutual

/-- Structural equality of Go error values (Go compares errors by identity;
`base` ids model allocation identity, so structural equality coincides
with Go's comparison). -/
def beqGoErr : GoErr → GoErr → Bool
  | .base i m, .base i2 m2 => i == i2 && m == m2
  | .wrapf c a, .wrapf c2 a2 => c == c2 && beqGoErr a a2
  | .errVal i ex sm ld ud d mk, .errVal i2 ex2 sm2 ld2 ud2 d2 mk2 =>
      beqGoErr i i2 && ex == ex2 && sm == sm2 && ld == ld2 && ud == ud2 &&
        d == d2 && beqGoErrList mk mk2
  | _, _ => false

/-- Pointwise structural equality of marker lists. -/
def beqGoErrList : List GoErr → List GoErr → Bool
  | [], [] => true
  | a :: as, b :: bs => beqGoErr a b && beqGoErrList as bs
  | _, _ => false

end

instance : BEq GoErr := ⟨beqGoErr⟩

mutual

theorem beqGoErr_refl : ∀ e, beqGoErr e e = true
  | .base _ _ => by simp [beqGoErr]
  | .wrapf _ a => by simp [beqGoErr, beqGoErr_refl a]
  | .errVal i _ _ _ _ _ mk => by
      simp [beqGoErr, beqGoErr_refl i, beqGoErrList_refl mk]

theorem beqGoErrList_refl : ∀ l, beqGoErrList l l = true
  | [] => by simp [beqGoErrList]
  | a :: as => by simp [beqGoErrList, beqGoErr_refl a, beqGoErrList_refl as]

end

mutual

theorem beqGoErr_eq : ∀ a b, beqGoErr a b = true → a = b
  | .base _ _, .base _ _ => by
      simp only [beqGoErr, Bool.and_eq_true, beq_iff_eq]
      rintro ⟨rfl, rfl⟩; rfl
  | .wrapf _ a, .wrapf _ a2 => by
      simp only [beqGoErr, Bool.and_eq_true, beq_iff_eq]
      rintro ⟨rfl, h⟩; rw [beqGoErr_eq a a2 h]
  | .errVal i _ _ _ _ _ mk, .errVal i2 _ _ _ _ _ mk2 => by
      simp only [beqGoErr, Bool.and_eq_true, beq_iff_eq]
      rintro ⟨⟨⟨⟨⟨⟨hi, rfl⟩, rfl⟩, rfl⟩, rfl⟩, rfl⟩, hmk⟩
      rw [beqGoErr_eq i i2 hi, beqGoErrList_eq mk mk2 hmk]
  | .base _ _, .wrapf _ _ => by simp [beqGoErr]
  | .base _ _, .errVal _ _ _ _ _ _ _ => by simp [beqGoErr]
  | .wrapf _ _, .base _ _ => by simp [beqGoErr]
  | .wrapf _ _, .errVal _ _ _ _ _ _ _ => by simp [beqGoErr]
  | .errVal _ _ _ _ _ _ _, .base _ _ => by simp [beqGoErr]
  | .errVal _ _ _ _ _ _ _, .wrapf _ _ => by simp [beqGoErr]

theorem beqGoErrList_eq : ∀ a b, beqGoErrList a b = true → a = b
  | [], [] => by simp
  | a :: as, b :: bs => by
      simp only [beqGoErrList, Bool.and_eq_true]
      rintro ⟨h, ht⟩
      rw [beqGoErr_eq a b h, beqGoErrList_eq as bs ht]
  | [], _ :: _ => by simp [beqGoErrList]
  | _ :: _, [] => by simp [beqGoErrList]

end

instance : LawfulBEq GoErr where
  eq_of_beq h := beqGoErr_eq _ _ h
  rfl := beqGoErr_refl _

instance : DecidableEq GoErr := fun a b =>
  decidable_of_iff ((a == b) = true) beq_iff_eq

/-- `err.Error()`: a `*errs.Error` returns `Internal.Error()`; a wrapped
error prepends its context text. -/
def errMsg : GoErr → String
  | .base _ m => m
  | .wrapf c i => c ++ ": " ++ errMsg i
  | .errVal i _ _ _ _ _ _ => errMsg i

/-- Whether the top-level value is a `*errs.Error` (an Error Value). -/
def isErrorValue : GoErr → Bool
  | .errVal _ _ _ _ _ _ _ => true
  | _ => false

/-- Whether the value is a bare sentinel (`errors.New` allocation). -/
def isSentinel : GoErr → Bool
  | .base _ _ => true
  | _ => false

/-- `errors.Is(err, target)`: walk the unwrap chain; at each node the value
is compared with the target, a `*errs.Error` node additionally reports a
match when the target equals one of its markers (its `Is` method), and
unwrapping follows `wrapf`'s wrapped error and `errVal`'s `Internal`. -/
def goIs : GoErr → GoErr → Bool
  | e@(.base _ _), t => e == t
  | e@(.wrapf _ inner), t => e == t || goIs inner t
  | e@(.errVal internal _ _ _ _ _ markers), t =>
      e == t || markers.contains t || goIs internal t

/-- `errors.As(err, &e)` for target type `*errs.Error`: the first
`*errs.Error` node on the unwrap chain, if any. -/
def goAs : GoErr → Option GoErr
  | e@(.errVal _ _ _ _ _ _ _) => some e
  | .wrapf _ inner => goAs inner
  | .base _ _ => none

/- The canonical sentinel errors, each a distinct `errors.New` allocation. -/

def ErrNotImplemented : GoErr := .base 0 "not implemented"

def ErrRemoteServiceErr : GoErr := .base 1 "remote service error"

def ErrRateLimited : GoErr := .base 2 "rate limited"

def ErrInvalidArgument : GoErr := .base 3 "invalid argument"

def ErrMissingArgument : GoErr := .base 4 "missing argument"

def ErrOutOfRange : GoErr := .base 5 "out of range"

def ErrPermissionDenied : GoErr := .base 6 "permission denied"

def ErrUnauthorized : GoErr := .base 7 "unauthorized"

def ErrExists : GoErr := .base 8 "already exists"

def ErrNotFound : GoErr := .base 9 "not found"

def ErrOutdated : GoErr := .base 10 "outdated"

/-- `context.DeadlineExceeded` from the Go standard library. -/
def DeadlineExceeded : GoErr := .base 11 "context deadline exceeded"

/-- `IsAny` from helpers.go: true when `errors.Is` matches any reference. -/
def IsAny (err : GoErr) (references : List GoErr) : Bool :=
  references.any (fun reference => goIs err reference)

/-- Modelled from the spec: `Wrap(err, contextMessage)` is absent from the
sources (only its tests and callers are); per invariant 2 it returns nil for
nil input, otherwise a new Error Value whose `Internal` wraps the argument
with the context text prepended to the rendered message, preserving the
previous value's `ExposeInternal`, `SafeMessage`, `LogDetails`,
`UserDetails`, `Domain` and `Markers` (defaults for a foreign argument).
The variadic options are elided: no verified property supplies any. -/
def Wrap (err : Option GoErr) (contextMessage : String) : Option GoErr :=
  match err with
  | none => none
  | some e =>
    match e with
    | .errVal _ ex sm ld ud dom mk =>
        some (.errVal (.wrapf contextMessage e) ex sm ld ud dom mk)
    | _ => some (.errVal (.wrapf contextMessage e) false "" [] none "" [])

/-- Modelled from the spec: `Mark(err, sentinel)` is absent from the sources
(only its tests and callers are); per §4.1 it returns nil for nil input,
clones an Error Value argument with the sentinel appended to its markers
(leaving the original's marker set unmodified), and wraps a foreign argument
in a fresh Error Value with `markers = {sentinel}`; the rendered message is
never changed.  The variadic options are elided: no verified property
supplies any. -/
def Mark (err : Option GoErr) (sentinel : GoErr) : Option GoErr :=
  match err with
  | none => none
  | some e =>
    match e with
    | .errVal i ex sm ld ud dom mk =>
        some (.errVal i ex sm ld ud dom (mk ++ [sentinel]))
    | _ => some (.errVal e false "" [] none "" [sentinel])

/-- `GetHTTPCode` from the std-lib variant: ordered `errors.Is` matching
against the canonical sentinels, first match wins, default 500. -/
def GetHTTPCode (err : GoErr) : Nat :=
  if goIs err ErrNotImplemented then 501
  else if goIs err DeadlineExceeded then 504
  else if goIs err ErrRemoteServiceErr then 502
  else if goIs err ErrRateLimited then 429
  else if IsAny err [ErrInvalidArgument, ErrMissingArgument, ErrOutOfRange] then 400
  else if goIs err ErrPermissionDenied then 403
  else if goIs err ErrUnauthorized then 401
  else if IsAny err [ErrExists, ErrOutdated] then 409
  else if goIs err ErrNotFound then 404
  else 500

/-- `HTTPGetLogLevel`: slog levels are integers (Debug = -4, Warn = 4,
Error = 8). -/
def HTTPGetLogLevel (status : Nat) : Int :=
  if status ≥ 500 then 8
  else if status = 401 ∨ status = 403 then 4
  else -4

/-- `http.StatusText` for the codes this package can produce. -/
def statusText : Nat → String
  | 400 => "Bad Request"
  | 401 => "Unauthorized"
  | 403 => "Forbidden"
  | 404 => "Not Found"
  | 409 => "Conflict"
  | 429 => "Too Many Requests"
  | 500 => "Internal Server Error"
  | 501 => "Not Implemented"
  | 502 => "Bad Gateway"
  | 504 => "Gateway Timeout"
  | _ => ""

/-- `LogErrOptions`: the logger is identified by a numeric id
(`slog.Default()` is logger 0); levels are slog's integers. -/
structure LogErrOptions where
  logger : Nat
  logLevel : Int
  loggerAttrs : List String
deriving DecidableEq

/-- A `LogErrOption` mutates the options struct; modelled as data applied
in order. -/
inductive LogErrOption where
  | useLogger (id : Nat)
  | useLogLevel (level : Int)
  | useLoggerAttrs (attrs : List String)
deriving DecidableEq

/-- Application of one option to the configuration, as the closures in
log.go do. -/
def applyLogErrOption (c : LogErrOptions) : LogErrOption → LogErrOptions
  | .useLogger i => { c with logger := i }
  | .useLogLevel l => { c with logLevel := l }
  | .useLoggerAttrs a => { c with loggerAttrs := a }

/-- `DefaultLogErrOptions`: `slog.Default()` at `slog.LevelError` with no
attributes. -/
def DefaultLogErrOptions : LogErrOptions := ⟨0, 8, []⟩

/-- One dispatched call to the structured logging sink
(`Logger.Log(ctx, level, msg, attrs...)`). -/
structure LogCall where
  logger : Nat
  level : Int
  message : String
  attrs : List String
deriving DecidableEq

/-- `LogErr` from log.go: no-op on nil; otherwise resolves the
configuration, locates a `*errs.Error` anywhere in the chain via
`errors.As`, and dispatches exactly one log call whose attributes are
`LogDetails ++ ("domain", Domain when non-empty) ++ configured attrs` for
an Error Value, or just the configured attrs for a foreign error.  The
returned list is the sequence of sink calls the invocation dispatches. -/
def LogErr (err : Option GoErr) (opts : List LogErrOption) : List LogCall :=
  match err with
  | none => []
  | some e =>
    let config := opts.foldl applyLogErrOption DefaultLogErrOptions
    match goAs e with
    | some (.errVal _ _ _ ld _ dom _) =>
        [⟨config.logger, config.logLevel, errMsg e,
          ld ++ (if dom = "" then [] else ["domain", dom]) ++ config.loggerAttrs⟩]
    | _ => [⟨config.logger, config.logLevel, errMsg e, config.loggerAttrs⟩]

/-- Serialized payload text of a user-details value. -/
def uvalStr : UVal → String
  | .jval s => s
  | .badval s => s

/-- Whether `json.Marshal` succeeds on an `ErrorHTTPResponse` whose
`Details` field holds the given value: it fails exactly when the payload is
unserializable (the `Error` string field itself always serializes). -/
def marshalOk : Option UVal → Bool
  | some (.badval _) => false
  | _ => true

/-- The JSON object produced for `ErrorHTTPResponse{Error: message,
Details: details}` as an ordered field list: the `details` field carries the
`omitempty` tag, so it is omitted entirely when the payload is nil. -/
def renderJSON (message : String) (details : Option UVal) : List (String × String) :=
  ("error", message) ::
    (match details with
     | none => []
     | some v => [("details", uvalStr v)])

/-- Body written to the response writer: `http.Error` writes plain text,
the Error Value path writes serialized JSON. -/
inductive HTTPBody where
  | plainText (msg : String)
  | jsonBody (fields : List (String × String))
deriving DecidableEq

/-- The request data `HandleHTTP` reads (`r.Method`, `r.URL.Path`,
`r.RemoteAddr`). -/
structure HTTPRequest where
  method : String
  path : String
  remoteAddr : String
deriving DecidableEq

/-- Observable outcome of one `HandleHTTP` invocation: the returned
`handled` flag, the sequence of sink calls dispatched, and the status,
content-type and body written to the response writer (none when nothing
was written). -/
structure HandleHTTPResult where
  handled : Bool
  logCalls : List LogCall
  status : Option Nat
  contentType : Option String
  body : Option HTTPBody
deriving DecidableEq

/-- `HandleHTTP` from the std-lib variant, modelled statement by statement:
classify the status, build the config (level defaulted from
`HTTPGetLogLevel`), call `LogErr` with the HTTP attributes appended to the
caller's options, then either (foreign path, `errors.As` fails) log once
more directly and write the generic status text via `http.Error` returning
the `handled` named return still at its zero value, or (Error Value path)
call `LogErr` a second time, select the response message from
`SafeMessage` / `ExposeInternal`, marshal the JSON body (on failure log and
respond 500 with no body, returning true) and write it, returning true. -/
def HandleHTTP (r : HTTPRequest) (err : Option GoErr) (opts : List LogErrOption) :
    HandleHTTPResult :=
  match err with
  | none => ⟨false, [], none, none, none⟩
  | some e =>
    let status := GetHTTPCode e
    let config := opts.foldl applyLogErrOption ⟨0, HTTPGetLogLevel status, []⟩
    let httpAttrs := ["method", r.method, "path", r.path,
      "status", toString status, "remote_addr", r.remoteAddr]
    let logs1 := LogErr (some e) (opts ++ [.useLoggerAttrs httpAttrs])
    let message := statusText status
    match goAs e with
    | some (.errVal i ex sm _ ud _ _) =>
        let logs2 := LogErr (some e) (opts ++ [.useLoggerAttrs httpAttrs])
        let message := if sm ≠ "" then sm else if ex then errMsg i else message
        if marshalOk ud then
          { handled := true
            logCalls := logs1 ++ logs2
            status := some status
            contentType := some "application/json"
            body := some (.jsonBody (renderJSON message ud)) }
        else
          { handled := true
            logCalls := logs1 ++ logs2 ++
              [⟨config.logger, 8, "failed to marshal error response", httpAttrs⟩]
            status := some 500
            contentType := none
            body := none }
    | _ =>
        { handled := false
          logCalls := logs1 ++
            [⟨config.logger, config.logLevel, errMsg e, config.loggerAttrs⟩]
          status := some status
          contentType := some "text/plain; charset=utf-8"
          body := some (.plainText message) }

/-- The fluent factory's snapshot state (the unexported `factory` struct). -/
structure FactoryState where
  internal : Option GoErr
  safeMessage : String
  logDetails : List String
  userDetails : Option UVal
  domain : String
  markers : List GoErr
  priv : Bool
  forced : Option Bool
deriving DecidableEq

/-- `F()`: a fresh factory, defaulting to private with no forced
visibility. -/
def F : FactoryState :=
  ⟨none, "", [], none, "", [], true, none⟩

/-- `factory.Message`: sets the internal error from the format string (a
fresh allocation, id 900). -/
def FactoryState.Message (f : FactoryState) (msg : String) : FactoryState :=
  { f with internal := some (.base 900 msg) }

/-- `factory.UserMessage`: sets the safe message. -/
def FactoryState.UserMessage (f : FactoryState) (msg : String) : FactoryState :=
  { f with safeMessage := msg }

/-- `factory.Logs`: appends log details. -/
def FactoryState.Logs (f : FactoryState) (v : List String) : FactoryState :=
  { f with logDetails := f.logDetails ++ v }

/-- `factory.Mark`: appends the markers; when visibility has not been
explicitly forced, any marked error whose `GetHTTPCode` is below 500 flips
the snapshot to public. -/
def FactoryState.Mark (f : FactoryState) (es : List GoErr) : FactoryState :=
  let cp := { f with markers := f.markers ++ es }
  match cp.forced with
  | some _ => cp
  | none =>
      if es.any (fun e => GetHTTPCode e < 500) then { cp with priv := false } else cp

/-- `factory.Private`: forces private visibility and locks inference off. -/
def FactoryState.Private (f : FactoryState) : FactoryState :=
  { f with priv := true, forced := some true }

/-- `factory.Public`: forces public visibility and locks inference off. -/
def FactoryState.Public (f : FactoryState) : FactoryState :=
  { f with priv := false, forced := some false }

/-- `factory.Domain`: sets the domain tag. -/
def FactoryState.Domain (f : FactoryState) (d : String) : FactoryState :=
  { f with domain := d }

/-- `factory.Err`: materializes the Error Value, defaulting the internal
message to "unknown error" (fresh allocation, id 901), with
`ExposeInternal = !private`. -/
def FactoryState.Err (f : FactoryState) : GoErr :=
  .errVal (f.internal.getD (.base 901 "unknown error")) (!f.priv) f.safeMessage
    f.logDetails f.userDetails f.domain f.markers

/-- The exposure flag of a built Error Value. -/
def exposeInternalOf : GoErr → Bool
  | .errVal _ ex _ _ _ _ _ => ex
  | _ => false

/-- The spec's priority table for the classification mapper: sentinel
alternatives in order, each with its status. -/
def httpPriorityTable : List (List GoErr × Nat) :=
  [([ErrNotImplemented], 501),
   ([DeadlineExceeded], 504),
   ([ErrRemoteServiceErr], 502),
   ([ErrRateLimited], 429),
   ([ErrInvalidArgument, ErrMissingArgument, ErrOutOfRange], 400),
   ([ErrPermissionDenied], 403),
   ([ErrUnauthorized], 401),
   ([ErrExists, ErrOutdated], 409),
   ([ErrNotFound], 404)]

/-- The classification stated by the spec's words: walk the priority table
in order, return the status of the first entry one of whose alternative
sentinels matches, else 500. -/
def specOrderedCode (err : GoErr) : Nat :=
  match httpPriorityTable.find? (fun p => IsAny err p.1) with
  | some p => p.2
  | none => 500

/-- The flat list of canonical sentinels the classification mapper tests. -/
def canonicalSentinels : List GoErr :=
  [ErrNotImplemented, DeadlineExceeded, ErrRemoteServiceErr, ErrRateLimited,
   ErrInvalidArgument, ErrMissingArgument, ErrOutOfRange, ErrPermissionDenied,
   ErrUnauthorized, ErrExists, ErrOutdated, ErrNotFound]

section Lemmas

/-- Matching survives one wrap layer. -/
lemma goIs_wrap_of_goIs (e s : GoErr) (c : String) (h : goIs e s = true) :
    goIs ((Wrap (some e) c).getD e) s = true := by
  cases e <;> simp [Wrap, goIs] at h ⊢ <;> tauto

/-- `LogErr`'s attribute assembly when `errors.As` finds an Error Value. -/
lemma logErr_of_goAs_found (err : GoErr) (opts : List LogErrOption)
    (i : GoErr) (ex : Bool) (sm : String) (ld : List String) (ud : Option UVal)
    (dom : String) (mk : List GoErr)
    (hAs : goAs err = some (.errVal i ex sm ld ud dom mk)) :
    LogErr (some err) opts =
      [⟨(opts.foldl applyLogErrOption DefaultLogErrOptions).logger,
        (opts.foldl applyLogErrOption DefaultLogErrOptions).logLevel,
        errMsg err,
        ld ++ (if dom = "" then [] else ["domain", dom]) ++
          (opts.foldl applyLogErrOption DefaultLogErrOptions).loggerAttrs⟩] := by
  simp [LogErr, hAs]

/-- `LogErr`'s attribute assembly when no Error Value is in the chain. -/
lemma logErr_of_goAs_none (err : GoErr) (opts : List LogErrOption)
    (hAs : goAs err = none) :
    LogErr (some err) opts =
      [⟨(opts.foldl applyLogErrOption DefaultLogErrOptions).logger,
        (opts.foldl applyLogErrOption DefaultLogErrOptions).logLevel,
        errMsg err,
        (opts.foldl applyLogErrOption DefaultLogErrOptions).loggerAttrs⟩] := by
  simp [LogErr, hAs]

/-- The body `HandleHTTP` writes when `errors.As` finds an Error Value and
serialization succeeds. -/
lemma handleHTTP_body_of_goAs_found (req : HTTPRequest) (opts : List LogErrOption)
    (err i : GoErr) (ex : Bool) (sm : String) (ld : List String) (ud : Option UVal)
    (dom : String) (mk : List GoErr)
    (hAs : goAs err = some (.errVal i ex sm ld ud dom mk))
    (hM : marshalOk ud = true) :
    (HandleHTTP req (some err) opts).body =
      some (.jsonBody (renderJSON
        (if sm ≠ "" then sm
         else if ex then errMsg i else statusText (GetHTTPCode err)) ud)) := by
  simp [HandleHTTP, hAs, hM]

/-- The body `HandleHTTP` writes when no Error Value is in the chain. -/
lemma handleHTTP_body_of_goAs_none (req : HTTPRequest) (opts : List LogErrOption)
    (err : GoErr) (hAs : goAs err = none) :
    (HandleHTTP req (some err) opts).body =
      some (.plainText (statusText (GetHTTPCode err))) := by
  simp [HandleHTTP, hAs]

end Lemmas

/-- C3: for every non-nil error `e` and context strings `a`, `b`,
`Wrap(Wrap(e, "a"), "b").Error()` equals `"b: a: " ++ e.Error()`: the
rendered message of a wrap chain concatenates every layer's context text
outer to inner, joined with ": ", ending with the innermost cause's
message. -/
theorem wrap_chain_message (e : GoErr) (a b : String) :
    (Wrap (Wrap (some e) a) b).map errMsg =
      some (b ++ ": " ++ a ++ ": " ++ errMsg e) := by
  cases e <;> simp [Wrap, errMsg, String.append_assoc]

/-- C6: a nil error propagates as nil through every composition operation:
`Wrap(nil, ctx)` and `Mark(nil, s)` are both nil. -/
theorem nil_propagation (ctx : String) (s : GoErr) :
    Wrap none ctx = none ∧ Mark none s = none :=
  ⟨rfl, rfl⟩

/-- C9: wrapping an Error Value preserves its `ExposeInternal`,
`SafeMessage`, `Domain`, `UserDetails`, `LogDetails` and marker set
unchanged in the result, and every sentinel the value matched is still
matched after wrapping. -/
theorem wrap_preserves_fields (c : String) (i : GoErr) (ex : Bool) (sm : String)
    (ld : List String) (ud : Option UVal) (dom : String) (mk : List GoErr) :
    Wrap (some (.errVal i ex sm ld ud dom mk)) c =
      some (.errVal (.wrapf c (.errVal i ex sm ld ud dom mk)) ex sm ld ud dom mk) ∧
    (∀ s : GoErr, goIs (.errVal i ex sm ld ud dom mk) s = true →
      goIs (.errVal (.wrapf c (.errVal i ex sm ld ud dom mk)) ex sm ld ud dom mk) s
        = true) := by
  refine ⟨rfl, fun s hs => ?_⟩
  have h := goIs_wrap_of_goIs (.errVal i ex sm ld ud dom mk) s c hs
  simpa [Wrap] using h

/-- C9 witness: the preservation theorem applied to a concrete wrapped
Error Value and a concrete matched sentinel. -/
theorem wrap_preserves_fields_witness :
    Wrap (some (.errVal (.base 50 "x") true "safe" ["k", "v"] none "dom"
        [.base 51 "m"])) "ctx" =
      some (.errVal (.wrapf "ctx" (.errVal (.base 50 "x") true "safe" ["k", "v"]
        none "dom" [.base 51 "m"])) true "safe" ["k", "v"] none "dom"
        [.base 51 "m"]) ∧
    goIs (.errVal (.wrapf "ctx" (.errVal (.base 50 "x") true "safe" ["k", "v"]
        none "dom" [.base 51 "m"])) true "safe" ["k", "v"] none "dom"
        [.base 51 "m"]) (.base 51 "m") = true :=
  ⟨(wrap_preserves_fields "ctx" (.base 50 "x") true "safe" ["k", "v"] none "dom"
      [.base 51 "m"]).1,
   (wrap_preserves_fields "ctx" (.base 50 "x") true "safe" ["k", "v"] none "dom"
      [.base 51 "m"]).2 (.base 51 "m") (by decide)⟩

/-- C4 counterexample: the claim quantifies over every error `e`, but when
`e` is itself an Error Value, `Mark(Mark(e, s1), s2)` is a clone and does
not match the original value `e` under `errors.Is`: at the concrete Error
Value below with distinct sentinels the is-a test evaluates to false. -/
theorem mark_double_original_errorvalue_not_matched :
    (Mark (Mark (some (.errVal (.base 50 "x") false "" [] none "" []))
        (.base 51 "s1")) (.base 52 "s2")).map
      (fun m => goIs m (.errVal (.base 50 "x") false "" [] none "" [])) =
      some false := by decide

/-- C4 amended: `Mark(Mark(e, s1), s2)` matches `s1` and `s2` for every
`e`; it additionally matches `e` itself whenever `e` is a foreign
(non-Error-Value) error; `Mark` never changes the rendered message; and
marking does not mutate: a value marked with `s1` alone does not match a
distinct sentinel `s2` it never matched before. -/
theorem mark_double_matches (e s1 s2 : GoErr) :
    (Mark (Mark (some e) s1) s2).map (fun m => goIs m s1) = some true ∧
    (Mark (Mark (some e) s1) s2).map (fun m => goIs m s2) = some true ∧
    (Mark (some e) s1).map errMsg = some (errMsg e) ∧
    (isErrorValue e = false →
      (Mark (Mark (some e) s1) s2).map (fun m => goIs m e) = some true) ∧
    (isSentinel s2 = true → s1 ≠ s2 → goIs e s2 = false →
      (Mark (some e) s1).map (fun m => goIs m s2) = some false) := by
  refine ⟨?_, ?_, ?_, ?_, ?_⟩
  · cases e <;> simp [Mark, goIs]
  · cases e <;> simp [Mark, goIs]
  · cases e <;> rfl
  · intro hf
    cases e <;> simp_all [Mark, goIs, isErrorValue]
  · intro hs2 hne hf
    cases s2 with
    | wrapf c2 i2 => simp [isSentinel] at hs2
    | errVal i2 ex2 sm2 ld2 ud2 dom2 mk2 => simp [isSentinel] at hs2
    | base id2 m2 =>
        cases e <;> simp_all [Mark, goIs] <;> tauto

/-- C4 witness: the amended statement applied to a concrete foreign base
error and two concrete distinct sentinels, all hypotheses discharged. -/
theorem mark_double_matches_witness :
    (Mark (Mark (some (.base 50 "x")) (.base 51 "s1")) (.base 52 "s2")).map
      (fun m => goIs m (.base 51 "s1")) = some true ∧
    (Mark (Mark (some (.base 50 "x")) (.base 51 "s1")) (.base 52 "s2")).map
      (fun m => goIs m (.base 50 "x")) = some true ∧
    (Mark (some (.base 50 "x")) (.base 51 "s1")).map
      (fun m => goIs m (.base 52 "s2")) = some false :=
  ⟨(mark_double_matches (.base 50 "x") (.base 51 "s1") (.base 52 "s2")).1,
   (mark_double_matches (.base 50 "x") (.base 51 "s1") (.base 52 "s2")).2.2.2.1
     (by decide),
   (mark_double_matches (.base 50 "x") (.base 51 "s1") (.base 52 "s2")).2.2.2.2
     (by decide) (by decide) (by decide)⟩

/-- C2: `GetHTTPCode` tests the chain against the sentinels in the fixed
priority order of the spec's table and returns the first match's status;
an error marked with both `NotFound` and `Unauthorized` classifies as 401
because `Unauthorized` is the earlier entry; an error matching no
sentinel classifies as 500. -/
theorem getHTTPCode_priority_order (err : GoErr) :
    GetHTTPCode err = specOrderedCode err ∧
    (Mark (Mark (some (.base 50 "x")) ErrNotFound) ErrUnauthorized).map GetHTTPCode
      = some 401 ∧
    ((∀ s ∈ canonicalSentinels, goIs err s = false) → GetHTTPCode err = 500) := by
  refine ⟨?_, by decide, ?_⟩
  · simp only [specOrderedCode, httpPriorityTable, List.find?_cons, GetHTTPCode, IsAny,
      List.any_cons, List.any_nil, Bool.or_false]
    split_ifs <;> simp_all <;>
      (try rcases ‹_ ∨ _› with h | h | h <;> simp [h]) <;>
      (try rcases ‹_ ∨ _› with h | h <;> simp [h])
  · intro h
    have h1 := h ErrNotImplemented (by decide)
    have h2 := h DeadlineExceeded (by decide)
    have h3 := h ErrRemoteServiceErr (by decide)
    have h4 := h ErrRateLimited (by decide)
    have h5 := h ErrInvalidArgument (by decide)
    have h6 := h ErrMissingArgument (by decide)
    have h7 := h ErrOutOfRange (by decide)
    have h8 := h ErrPermissionDenied (by decide)
    have h9 := h ErrUnauthorized (by decide)
    have h10 := h ErrExists (by decide)
    have h11 := h ErrOutdated (by decide)
    have h12 := h ErrNotFound (by decide)
    simp [GetHTTPCode, IsAny, h1, h2, h3, h4, h5, h6, h7, h8, h9, h10, h11, h12]

/-- C2 witness: the priority-order theorem applied to a concrete foreign
error matching no sentinel, yielding 500. -/
theorem getHTTPCode_priority_order_witness :
    GetHTTPCode (.base 50 "boom") = 500 :=
  (getHTTPCode_priority_order (.base 50 "boom")).2.2 (by decide)

/-- C1: evaluation of `HandleHTTP` on each path.  The Error Value path and
the serialization-failure path return handled = true and the nil path
returns false as claimed, but the foreign path writes the generic status
text response and still returns handled = false — the function's named
return is left at its zero value there, contradicting the claim and the
documented usage. -/
theorem handleHTTP_handled_flags :
    (HandleHTTP ⟨"GET", "/u", "a"⟩ none []).handled = false ∧
    (HandleHTTP ⟨"GET", "/u", "a"⟩ (some (.base 50 "boom")) []).handled = false ∧
    (HandleHTTP ⟨"GET", "/u", "a"⟩ (some (.base 50 "boom")) []).body
      = some (.plainText "Internal Server Error") ∧
    (HandleHTTP ⟨"GET", "/u", "a"⟩
        (some (.errVal (.base 50 "boom") false "" [] none "" [])) []).handled
      = true ∧
    (HandleHTTP ⟨"GET", "/u", "a"⟩
        (some (.errVal (.base 50 "boom") false "" [] (some (.badval "chan")) "" []))
        []).handled = true ∧
    (HandleHTTP ⟨"GET", "/u", "a"⟩
        (some (.errVal (.base 50 "boom") false "" [] (some (.badval "chan")) "" []))
        []).status = some 500 ∧
    (HandleHTTP ⟨"GET", "/u", "a"⟩
        (some (.errVal (.base 50 "boom") false "" [] (some (.badval "chan")) "" []))
        []).body = none := by decide

/-- C5: a single `LogErr` call dispatches exactly one sink call for non-nil
errors and none for nil, but one `HandleHTTP` invocation dispatches two
sink calls on both the Error Value path and the foreign path, refuting the
at-most-one-per-render claim. -/
theorem logErr_single_dispatch :
    (∀ (e : GoErr) (opts : List LogErrOption), (LogErr (some e) opts).length = 1) ∧
    LogErr none [] = [] ∧
    (HandleHTTP ⟨"GET", "/u", "a"⟩
        (some (.errVal (.base 50 "boom") false "" [] none "" [])) []).logCalls.length
      = 2 ∧
    (HandleHTTP ⟨"GET", "/u", "a"⟩ (some (.base 50 "boom")) []).logCalls.length
      = 2 := by
  refine ⟨?_, rfl, by decide, by decide⟩
  intro e opts
  rcases h : goAs e with _ | f
  · simp [LogErr, h]
  · cases f <;> simp [LogErr, h]

/-- C7: when `HandleHTTP` renders an Error Value, the response message is
`SafeMessage` when non-empty, else the internal chain message when
`ExposeInternal`, else the generic status text; the JSON body is exactly
the `error` field with that message plus a `details` field carrying
`UserDetails`, the latter omitted entirely when the payload is absent. -/
theorem handleHTTP_errorvalue_body (req : HTTPRequest) (opts : List LogErrOption)
    (err i : GoErr) (ex : Bool) (sm : String) (ld : List String) (ud : Option UVal)
    (dom : String) (mk : List GoErr)
    (hAs : goAs err = some (.errVal i ex sm ld ud dom mk))
    (hM : marshalOk ud = true) :
    (HandleHTTP req (some err) opts).body =
      some (.jsonBody (renderJSON
        (if sm ≠ "" then sm
         else if ex then errMsg i else statusText (GetHTTPCode err)) ud)) ∧
    (∀ m : String, renderJSON m none = [("error", m)]) ∧
    (∀ (m : String) (v : UVal), renderJSON m (some v)
      = [("error", m), ("details", uvalStr v)]) :=
  ⟨handleHTTP_body_of_goAs_found req opts err i ex sm ld ud dom mk hAs hM,
    fun _ => rfl, fun _ _ => rfl⟩

/-- C7 witness: the body theorem applied to a concrete Error Value with a
safe message and no user details: the body is the single-field JSON
object. -/
theorem handleHTTP_errorvalue_body_witness :
    (HandleHTTP ⟨"GET", "/u", "a"⟩
        (some (.errVal (.base 50 "x") false "safe" [] none "" [])) []).body
      = some (.jsonBody [("error", "safe")]) := by
  have h := handleHTTP_errorvalue_body ⟨"GET", "/u", "a"⟩ []
    (.errVal (.base 50 "x") false "safe" [] none "" []) (.base 50 "x")
    false "safe" [] none "" [] (by decide) (by decide)
  exact h.1.trans (by decide)

/-- C8: factory visibility inference: marking with a sentinel classified
below 500 turns the snapshot public; `Private` forces private visibility
whether called before or after the mark and locks inference off;
symmetrically `Public` forces public visibility regardless of later
marks. -/
theorem factory_visibility_inference (s : GoErr) (h : GetHTTPCode s < 500) :
    exposeInternalOf ((F.Message "x").Mark [s]).Err = true ∧
    exposeInternalOf (((F.Message "x").Mark [s]).Private).Err = false ∧
    exposeInternalOf (((F.Message "x").Private).Mark [s]).Err = false ∧
    exposeInternalOf (((F.Message "x").Mark [s]).Public).Err = true ∧
    (∀ s2 : GoErr, exposeInternalOf (((F.Message "x").Public).Mark [s2]).Err = true) ∧
    (∀ s2 : GoErr, exposeInternalOf (((F.Message "x").Private).Mark [s2]).Err
      = false) := by
  refine ⟨?_, ?_, ?_, ?_, fun s2 => ?_, fun s2 => ?_⟩
  all_goals
    simp [F, FactoryState.Message, FactoryState.Mark, FactoryState.Private,
      FactoryState.Public, FactoryState.Err, exposeInternalOf, h]

/-- C8 witness: the inference theorem applied to `ErrRateLimited`
(classified 429). -/
theorem factory_visibility_inference_witness :
    exposeInternalOf ((F.Message "x").Mark [ErrRateLimited]).Err = true ∧
    exposeInternalOf (((F.Message "x").Mark [ErrRateLimited]).Private).Err = false ∧
    exposeInternalOf (((F.Message "x").Private).Mark [ErrRateLimited]).Err = false :=
  ⟨(factory_visibility_inference ErrRateLimited (by decide)).1,
   (factory_visibility_inference ErrRateLimited (by decide)).2.1,
   (factory_visibility_inference ErrRateLimited (by decide)).2.2.1⟩

/-- C10: `LogErr` and `HandleHTTP` locate the Error Value anywhere in the
chain via `errors.As`: whenever a `*errs.Error` is found — however deeply
nested under foreign wrapping — `LogErr`'s attributes are its `LogDetails`
then the domain pair (when the domain is non-empty) then the configured
attributes, and `HandleHTTP`'s body uses its `SafeMessage`,
`ExposeInternal` and `UserDetails`; only when no `*errs.Error` exists in
the chain is the error rendered as foreign (configured attributes only,
plain generic status text body). -/
theorem as_based_error_lookup (req : HTTPRequest) (opts : List LogErrOption)
    (err : GoErr) :
    (∀ (i : GoErr) (ex : Bool) (sm : String) (ld : List String) (ud : Option UVal)
        (dom : String) (mk : List GoErr),
      goAs err = some (.errVal i ex sm ld ud dom mk) →
      LogErr (some err) opts =
        [⟨(opts.foldl applyLogErrOption DefaultLogErrOptions).logger,
          (opts.foldl applyLogErrOption DefaultLogErrOptions).logLevel,
          errMsg err,
          ld ++ (if dom = "" then [] else ["domain", dom]) ++
            (opts.foldl applyLogErrOption DefaultLogErrOptions).loggerAttrs⟩] ∧
      (marshalOk ud = true →
        (HandleHTTP req (some err) opts).body =
          some (.jsonBody (renderJSON
            (if sm ≠ "" then sm
             else if ex then errMsg i else statusText (GetHTTPCode err)) ud)))) ∧
    (goAs err = none →
      LogErr (some err) opts =
        [⟨(opts.foldl applyLogErrOption DefaultLogErrOptions).logger,
          (opts.foldl applyLogErrOption DefaultLogErrOptions).logLevel,
          errMsg err,
          (opts.foldl applyLogErrOption DefaultLogErrOptions).loggerAttrs⟩] ∧
      (HandleHTTP req (some err) opts).body =
        some (.plainText (statusText (GetHTTPCode err)))) := by
  constructor
  · intro i ex sm ld ud dom mk hAs
    exact ⟨logErr_of_goAs_found err opts i ex sm ld ud dom mk hAs,
      fun hM => handleHTTP_body_of_goAs_found req opts err i ex sm ld ud dom mk hAs hM⟩
  · intro hAs
    exact ⟨logErr_of_goAs_none err opts hAs,
      handleHTTP_body_of_goAs_none req opts err hAs⟩

/-- C10 witness: the lookup theorem applied to an Error Value nested under
a foreign wrapping layer, and to a bare foreign error. -/
theorem as_based_error_lookup_witness :
    LogErr (some (.wrapf "outer"
        (.errVal (.base 50 "in") false "sm" ["k", "v"] none "d" []))) []
      = [⟨0, 8, "outer: in", ["k", "v", "domain", "d"]⟩] ∧
    (HandleHTTP ⟨"GET", "/u", "a"⟩ (some (.wrapf "outer"
        (.errVal (.base 50 "in") false "sm" ["k", "v"] none "d" []))) []).body
      = some (.jsonBody [("error", "sm")]) ∧
    LogErr (some (.base 50 "boom")) [] = [⟨0, 8, "boom", []⟩] ∧
    (HandleHTTP ⟨"GET", "/u", "a"⟩ (some (.base 50 "boom")) []).body
      = some (.plainText "Internal Server Error") := by
  have h1 := (as_based_error_lookup ⟨"GET", "/u", "a"⟩ []
    (.wrapf "outer" (.errVal (.base 50 "in") false "sm" ["k", "v"] none "d" []))).1
    (.base 50 "in") false "sm" ["k", "v"] none "d" [] (by decide)
  have h2 := (as_based_error_lookup ⟨"GET", "/u", "a"⟩ [] (.base 50 "boom")).2
    (by decide)
  exact ⟨h1.1.trans (by decide), (h1.2 (by decide)).trans (by decide),
    h2.1.trans (by decide), h2.2.trans (by decide)⟩
